import Mathlib

/-!
Verification of the srumec users service (src/main.rs): a shallow embedding of
the request handlers, router, validators and per-request store session,
with theorems checking the natural-language specification against the code.

Modelling conventions:
* Strings from the Rust side are Lean `String`s; character-level work is done
  on `String.data` (`List Char`).
* The relational store is modelled as a list of rows plus an id supply
  (`Store`).  A database session is an optional `PgClient`: `none` models a
  connection failure, and each statement of a `PgClient` returns
  `Except Unit α` (error = statement execution failure) together with the
  store state after the statement.  `honestClient` interprets the SQL
  statements of main.rs over the `Store`.
* A handler result is `HOut`: either a `(status line, body)` response pair
  with the resulting store, or `panicked` (the Rust task aborting through an
  `unwrap()` on an `Err`).
-/

set_option maxRecDepth 10000
set_option maxHeartbeats 1000000

/-! ## Character classes -/

/-- Unicode white-space on the ASCII range, as used by the regex class `\s`
and by Rust's `split_whitespace`. -/
def isWsChar (c : Char) : Bool :=
  c == ' ' || c == '\t' || c == '\n' || c == '\r' || c == '\x0b' || c == '\x0c'

/-- The regex character class `[^\s@.]` of the email pattern in
`handle_post_request`. -/
def okChar (c : Char) : Bool := !isWsChar c && c != '@' && c != '.'

/-- A character allowed anywhere in a dotted label sequence: `[^\s@.]` or the
dot itself. -/
def okOrDot (c : Char) : Bool := okChar c || c == '.'

/-! ## The header/body boundary marker and Rust `str::split` -/

/-- The header/body boundary marker `"\r\n\r\n"`. -/
def marker : List Char := ['\r', '\n', '\r', '\n']

/-- Leftmost occurrence search: `breakSub pat l = some (before, after)` when
`pat` occurs in `l`, where `before` is the part of `l` strictly before the
first occurrence and `after` the part strictly after it. -/
def breakSub (pat : List Char) : List Char → Option (List Char × List Char)
  | [] => none
  | c :: rest =>
    if pat.isPrefixOf (c :: rest) then some ([], (c :: rest).drop pat.length)
    else (breakSub pat rest).map (fun p => (c :: p.1, p.2))

/-- Whether `pat` occurs as a contiguous subsequence of `l`. -/
def hasSub (pat l : List Char) : Bool := (breakSub pat l).isSome

/-- Fuelled splitter on the boundary marker (the fuel only serves structural
recursion; `l.length + 1` steps always suffice because every found occurrence
strictly shortens the remainder). -/
def splitMarkerF : Nat → List Char → List (List Char)
  | 0, l => [l]
  | fuel + 1, l =>
    match breakSub marker l with
    | none => [l]
    | some p => p.1 :: splitMarkerF fuel p.2

/-- Rust's `request.split("\r\n\r\n")`: the list of pieces between the
non-overlapping leftmost occurrences of the boundary marker. -/
def splitMarker (l : List Char) : List (List Char) :=
  splitMarkerF (l.length + 1) l

/-- Body extraction of `handle_post_request` / `handle_put_request`:
`req.split("\r\n\r\n").nth(1).unwrap_or_default()`. -/
def extract_body (req : String) : String :=
  (((splitMarker req.data).drop 1).headD []).asString

/-- The text after the first occurrence of the boundary marker (the reading
used by the specification of body extraction); empty when there is no
occurrence. -/
def afterFirstMarker (req : String) : String :=
  match breakSub marker req.data with
  | none => ""
  | some p => p.2.asString

/-! ## UUID parsing (model of `uuid::Uuid::parse_str`) -/

/-- Value of one hexadecimal digit. -/
def hexVal (c : Char) : Option Nat :=
  if '0' ≤ c ∧ c ≤ '9' then some (c.toNat - 48)
  else if 'a' ≤ c ∧ c ≤ 'f' then some (c.toNat - 87)
  else if 'A' ≤ c ∧ c ≤ 'F' then some (c.toNat - 55)
  else none

/-- Fold a list of hex digits into a number; fails on any non-hex character. -/
def hexFold : List Char → Nat → Option Nat
  | [], acc => some acc
  | c :: r, acc =>
    match hexVal c with
    | some v => hexFold r (acc * 16 + v)
    | none => none

/-- Model of `uuid::Uuid::parse_str`: accepts the 32-hex-digit simple form and
the 8-4-4-4-12 hyphenated form (upper or lower case) and yields the 128-bit
value; everything else fails. -/
def parseUuid (s : String) : Option Nat :=
  let cs := s.data
  if cs.length = 32 then hexFold cs 0
  else if cs.length = 36 then
    match cs[8]?, cs[13]?, cs[18]?, cs[23]? with
    | some '-', some '-', some '-', some '-' =>
      hexFold (cs.take 8 ++ ((cs.drop 9).take 4) ++ ((cs.drop 14).take 4) ++
               ((cs.drop 19).take 4) ++ cs.drop 24) 0
    | _, _, _, _ => none
  else none

/-- Rust's `req.split('/')`, over character lists (accumulator holds the
current piece reversed). -/
def splitSlashAux : List Char → List Char → List (List Char)
  | [], acc => [acc.reverse]
  | c :: r, acc =>
    if c = '/' then acc.reverse :: splitSlashAux r []
    else splitSlashAux r (c :: acc)

/-- Identifier extraction from the request text, from `get_user_id_from_request`:
`req.split('/').nth(2)`, then the part before the first whitespace
(`split_whitespace().next()`), defaulting to the empty string. -/
def get_user_id_from_request (req : String) : String :=
  match (splitSlashAux req.data [])[2]? with
  | some s => ((s.dropWhile isWsChar).takeWhile (fun c => !isWsChar c)).asString
  | none => ""

/-! ## The email regex `^[^\s@.]+(\.[^\s@.]+)*@[^\s@.]+(\.[^\s@.]+)+$`

The matcher consumes the subject left to right exactly as the (deterministic)
pattern does — the character class excludes both `.` and `@`, so greedy
consumption is the only possible parse.  `seqLoop inLabel l` consumes a
dotted label sequence: `inLabel = true` means at least one `[^\s@.]`
character of the current label has been consumed (so the sequence may stop
here, or a fresh label may start after a dot), `inLabel = false` means a dot
was just consumed (at least one label character is mandatory).  It returns
the unconsumed rest, or `none` when the pattern fails. -/

/-- Consume the remainder of a dotted label sequence (see above). -/
def seqLoop : Bool → List Char → Option (List Char)
  | true, [] => some []
  | false, [] => none
  | inLabel, c :: r =>
    if okChar c then seqLoop true r
    else if c = '.' then
      if inLabel then seqLoop false r else none
    else if inLabel then some (c :: r) else none

/-- Consume `[^\s@.]+(\.[^\s@.]+)*` (one or more dot-separated labels). -/
def matchSeq : List Char → Option (List Char)
  | [] => none
  | c :: r => if okChar c then seqLoop true r else none

/-- The anchored email pattern of `handle_post_request`: local part
`[^\s@.]+(\.[^\s@.]+)*`, then `@`, then domain `[^\s@.]+(\.[^\s@.]+)+`, then
end of subject.  The domain group is compiled as: the rest of the subject is
one or more dot-separated labels (`matchSeq r = some []`) among which at
least one dot occurs (labels contain no dots, so that is exactly the `+`
requiring two or more labels). -/
def emailMatch (s : String) : Bool :=
  match matchSeq s.data with
  | some ('@' :: r) => matchSeq r == some [] && r.contains '.'
  | _ => false

/-! ## The claim-side email shape predicate -/

/-- Whether a character list starts with a dot. -/
def startsDot : List Char → Bool
  | [] => false
  | c :: _ => c == '.'

/-- Whether a character list ends with a dot. -/
def endsDot : List Char → Bool
  | [] => false
  | [c] => c == '.'
  | _ :: r => endsDot r

/-- No two consecutive dots anywhere. -/
def noDD : List Char → Bool
  | [] => true
  | [_] => true
  | c :: d :: r => !(c == '.' && d == '.') && noDD (d :: r)

/-- The claim's conditions on one side of the `@`: non-empty, no leading,
trailing or consecutive dots, and no embedded whitespace. -/
def partOK (l : List Char) : Bool :=
  !l.isEmpty && !startsDot l && !endsDot l && noDD l &&
    l.all (fun c => !isWsChar c)

/-- A non-empty dotted label sequence over `[^\s@.]`: non-empty, no leading,
trailing or consecutive dots, and every character from the regex class or a
dot. -/
def goodLabels (l : List Char) : Bool :=
  !l.isEmpty && !startsDot l && !endsDot l && noDD l && l.all okOrDot

/-- The email-shape rule as the claim states it: exactly one `@`; the local
part (before the `@`) is non-empty with no leading, trailing or consecutive
dots and no whitespace; the domain part (after the `@`) satisfies the same
label conditions and contains at least one dot separating its labels. -/
def emailShapeSpec (s : String) : Bool :=
  s.data.count '@' == 1 &&
  partOK (s.data.takeWhile (fun c => c != '@')) &&
  partOK ((s.data.dropWhile (fun c => c != '@')).tail) &&
  ((s.data.dropWhile (fun c => c != '@')).tail).contains '.'

/-! ## JSON (model of `serde_json`)

`decodeJson` parses a JSON document; `userFromJson` applies the derived
`Deserialize` rules of the `User` struct (required `name`/`email` strings,
optional `id`/`role`/`banned`, duplicate known fields rejected, unknown
fields ignored).  The number grammar is lexed loosely, which is harmless
here because no `User` field is numeric. -/

/-- JSON values. -/
inductive JVal where
  | jnull : JVal
  | jbool : Bool → JVal
  | jstr : String → JVal
  | jnum : String → JVal
  | jarr : List JVal → JVal
  | jobj : List (String × JVal) → JVal

/-- JSON inter-token whitespace. -/
def jws (c : Char) : Bool := c == ' ' || c == '\t' || c == '\n' || c == '\r'

/-- Skip JSON whitespace. -/
def jskip (l : List Char) : List Char := l.dropWhile jws

/-- Characters that may occur in a (loosely lexed) number token. -/
def isNumChar (c : Char) : Bool :=
  c.isDigit || c == '-' || c == '+' || c == '.' || c == 'e' || c == 'E'

/-- Parse the contents of a JSON string after the opening quote, handling the
standard escapes; a raw control character or a bad escape fails. -/
def parseJStr : Nat → List Char → List Char → Option (String × List Char)
  | 0, _, _ => none
  | _ + 1, acc, '"' :: r => some (acc.reverse.asString, r)
  | fuel + 1, acc, '\\' :: e :: r =>
    match e with
    | '"' => parseJStr fuel ('"' :: acc) r
    | '\\' => parseJStr fuel ('\\' :: acc) r
    | '/' => parseJStr fuel ('/' :: acc) r
    | 'b' => parseJStr fuel ('\x08' :: acc) r
    | 'f' => parseJStr fuel ('\x0c' :: acc) r
    | 'n' => parseJStr fuel ('\n' :: acc) r
    | 'r' => parseJStr fuel ('\r' :: acc) r
    | 't' => parseJStr fuel ('\t' :: acc) r
    | 'u' =>
      match r with
      | h1 :: h2 :: h3 :: h4 :: r2 =>
        match hexVal h1, hexVal h2, hexVal h3, hexVal h4 with
        | some a, some b, some c, some d =>
          parseJStr fuel (Char.ofNat (((a * 16 + b) * 16 + c) * 16 + d) :: acc) r2
        | _, _, _, _ => none
      | _ => none
    | _ => none
  | fuel + 1, acc, c :: r =>
    if c.toNat < 32 then none else parseJStr fuel (c :: acc) r
  | _ + 1, _, [] => none

mutual

/-- Parse one JSON value (after skipping leading whitespace). -/
def parseJVal : Nat → List Char → Option (JVal × List Char)
  | 0, _ => none
  | fuel + 1, l =>
    match jskip l with
    | 'n' :: 'u' :: 'l' :: 'l' :: r => some (.jnull, r)
    | 't' :: 'r' :: 'u' :: 'e' :: r => some (.jbool true, r)
    | 'f' :: 'a' :: 'l' :: 's' :: 'e' :: r => some (.jbool false, r)
    | '"' :: r =>
      match parseJStr (r.length + 1) [] r with
      | some (s, r2) => some (.jstr s, r2)
      | none => none
    | '[' :: r => parseJArr fuel r
    | '\x7b' :: r => parseJObj fuel r
    | c :: r =>
      if c.isDigit || c == '-' then
        some (.jnum ((c :: r.takeWhile isNumChar).asString), r.dropWhile isNumChar)
      else none
    | [] => none

/-- Parse the items of a JSON array after the opening bracket. -/
def parseJArr : Nat → List Char → Option (JVal × List Char)
  | 0, _ => none
  | fuel + 1, l =>
    match jskip l with
    | ']' :: r => some (.jarr [], r)
    | l2 =>
      match parseJVal fuel l2 with
      | some (v, r) => parseJArrRest fuel [v] r
      | none => none

/-- Parse `, value`* `]` continuing a JSON array. -/
def parseJArrRest : Nat → List JVal → List Char → Option (JVal × List Char)
  | 0, _, _ => none
  | fuel + 1, acc, l =>
    match jskip l with
    | ']' :: r => some (.jarr acc.reverse, r)
    | ',' :: r =>
      match parseJVal fuel r with
      | some (v, r2) => parseJArrRest fuel (v :: acc) r2
      | none => none
    | _ => none

/-- Parse the members of a JSON object after the opening brace. -/
def parseJObj : Nat → List Char → Option (JVal × List Char)
  | 0, _ => none
  | fuel + 1, l =>
    match jskip l with
    | '\x7d' :: r => some (.jobj [], r)
    | '"' :: r =>
      match parseJStr (r.length + 1) [] r with
      | some (k, r2) =>
        match jskip r2 with
        | ':' :: r3 =>
          match parseJVal fuel r3 with
          | some (v, r4) => parseJObjRest fuel [(k, v)] r4
          | none => none
        | _ => none
      | none => none
    | _ => none

/-- Parse `, "key": value`* `}` continuing a JSON object. -/
def parseJObjRest : Nat → List (String × JVal) → List Char → Option (JVal × List Char)
  | 0, _, _ => none
  | fuel + 1, acc, l =>
    match jskip l with
    | '\x7d' :: r => some (.jobj acc.reverse, r)
    | ',' :: r =>
      match jskip r with
      | '"' :: r2 =>
        match parseJStr (r2.length + 1) [] r2 with
        | some (k, r3) =>
          match jskip r3 with
          | ':' :: r4 =>
            match parseJVal fuel r4 with
            | some (v, r5) => parseJObjRest fuel ((k, v) :: acc) r5
            | none => none
          | _ => none
        | none => none
      | _ => none
    | _ => none

end

/-- Parse a complete JSON document: one value followed only by whitespace. -/
def decodeJson (s : String) : Option JVal :=
  match parseJVal (s.length + 1) s.data with
  | some (v, rest) => if (jskip rest).isEmpty then some v else none
  | none => none

/-! ## The User data model -/

/-- The `User` struct of main.rs (`id`/`role`/`banned` optional, a UUID is its
128-bit value). -/
structure User where
  id : Option Nat
  name : String
  email : String
  role : Option String
  banned : Option Bool
deriving DecidableEq

/-- Fold the fields of a decoded JSON object into a `User` following the
derived `Deserialize` of the struct: each known field at most once with the
right type, `name` and `email` required, unknown fields ignored. -/
def userFields : List (String × JVal) → Option (Option Nat) → Option String →
    Option String → Option (Option String) → Option (Option Bool) → Option User
  | [], id?, name?, email?, role?, banned? =>
    match name?, email? with
    | some n, some e =>
      some ⟨(id?.getD none), n, e, (role?.getD none), (banned?.getD none)⟩
    | _, _ => none
  | (k, v) :: rest, id?, name?, email?, role?, banned? =>
    if k = "id" then
      match id?, v with
      | none, .jstr s =>
        match parseUuid s with
        | some u => userFields rest (some (some u)) name? email? role? banned?
        | none => none
      | none, .jnull => userFields rest (some none) name? email? role? banned?
      | _, _ => none
    else if k = "name" then
      match name?, v with
      | none, .jstr s => userFields rest id? (some s) email? role? banned?
      | _, _ => none
    else if k = "email" then
      match email?, v with
      | none, .jstr s => userFields rest id? name? (some s) role? banned?
      | _, _ => none
    else if k = "role" then
      match role?, v with
      | none, .jstr s => userFields rest id? name? email? (some (some s)) banned?
      | none, .jnull => userFields rest id? name? email? (some none) banned?
      | _, _ => none
    else if k = "banned" then
      match banned?, v with
      | none, .jbool b => userFields rest id? name? email? role? (some (some b))
      | none, .jnull => userFields rest id? name? email? role? (some none)
      | _, _ => none
    else userFields rest id? name? email? role? banned?

/-- Deserialize a JSON value as a `User` (top level must be an object). -/
def userFromJson : JVal → Option User
  | .jobj fs => userFields fs none none none none none
  | _ => none

/-- Model of `serde_json::from_str::<User>`. -/
def decodeUser (body : String) : Option User :=
  (decodeJson body).bind userFromJson

/-! ## JSON encoding (model of `serde_json::to_string`) -/

/-- Lowercase hex digit. -/
def hexDigitChar (n : Nat) : Char :=
  if n < 10 then Char.ofNat (48 + n) else Char.ofNat (87 + n)

/-- Escape one character for a JSON string literal. -/
def escChar (c : Char) : String :=
  if c = '"' then "\\\""
  else if c = '\\' then "\\\\"
  else if c = '\n' then "\\n"
  else if c = '\r' then "\\r"
  else if c = '\t' then "\\t"
  else if c.toNat < 32 then
    "\\u00" ++ String.mk [hexDigitChar (c.toNat / 16), hexDigitChar (c.toNat % 16)]
  else String.singleton c

/-- JSON string literal. -/
def encodeJStr (s : String) : String :=
  "\"" ++ String.join (s.data.map escChar) ++ "\""

/-- Fixed-width lowercase hex rendering of a number. -/
def natToHex : Nat → Nat → List Char
  | 0, _ => []
  | d + 1, n => natToHex d (n / 16) ++ [hexDigitChar (n % 16)]

/-- Hyphenated lowercase textual form of a UUID value. -/
def uuidHex (n : Nat) : String :=
  let h := natToHex 32 n
  (h.take 8).asString ++ "-" ++ ((h.drop 8).take 4).asString ++ "-" ++
  ((h.drop 12).take 4).asString ++ "-" ++ ((h.drop 16).take 4).asString ++ "-" ++
  (h.drop 20).asString

/-- Model of `serde_json::to_string(&user)`: fields in declaration order,
`None` rendered as `null`. -/
def encodeUser (u : User) : String :=
  "\x7b\"id\":" ++ (match u.id with | some n => encodeJStr (uuidHex n) | none => "null") ++
  ",\"name\":" ++ encodeJStr u.name ++
  ",\"email\":" ++ encodeJStr u.email ++
  ",\"role\":" ++ (match u.role with | some r => encodeJStr r | none => "null") ++
  ",\"banned\":" ++ (match u.banned with
    | some true => "true" | some false => "false" | none => "null") ++ "\x7d"

/-- Model of `serde_json::to_string(&users)` for a sequence of users. -/
def encodeUsers (us : List User) : String :=
  "[" ++ String.intercalate "," (us.map encodeUser) ++ "]"

/-! ## The store and the per-request database session -/

/-- One row of the `users` table: `id UUID PRIMARY KEY`, `name TEXT NOT NULL`,
`email TEXT NOT NULL UNIQUE`, `role TEXT NOT NULL DEFAULT 'user'`,
`banned BOOLEAN DEFAULT FALSE` (nullable). -/
structure Row where
  id : Nat
  name : String
  email : String
  role : String
  banned : Option Bool
deriving DecidableEq

/-- The relational store: the rows of the `users` table plus a supply of
fresh server-generated identifiers (`gen_random_uuid()`). -/
structure Store where
  rows : List Row
  nextId : Nat
deriving DecidableEq

/-- A database session able to run the parametrized statements of main.rs.
Each statement either succeeds with its result (`Except.ok`) or fails
(`Except.error ()`, a statement execution error), and yields the store state
after the statement. -/
structure PgClient where
  query_opt : Nat → Store → Except Unit (Option Row) × Store
  query_all : Store → Except Unit (List Row) × Store
  email_exists : String → Store → Except Unit Bool × Store
  execute_insert : String → String → Store → Except Unit Unit × Store
  execute_update : String → String → Option String → Option Bool → Nat →
    Store → Except Unit Nat × Store
  execute_delete : Nat → Store → Except Unit Nat × Store

/-- Result of handling one routed request: a `(status line, body)` response
with the store state afterwards, or a panic of the request's task (an
`unwrap()` on an `Err`), in which case no response is written. -/
inductive HOut where
  | resp : String → String → Store → HOut
  | panicked : HOut
deriving DecidableEq

/-- Status line constant `NOT_FOUND` of main.rs. -/
def NOT_FOUND : String := "HTTP/1.1 404 NOT FOUND\r\n\r\n"

/-- Status line constant `BAD_REQUEST` of main.rs. -/
def BAD_REQUEST : String := "HTTP/1.1 400 BAD REQUEST\r\n\r\n"

/-- Status line constant `OK_RESPONSE` of main.rs — the only 200 status line,
and it always carries the `Content-Type: application/json` header. -/
def OK_RESPONSE : String := "HTTP/1.1 200 OK\r\nContent-Type: application/json\r\n\r\n"

/-- Status line constant `INTERNAL_SERVER_ERROR` of main.rs. -/
def INTERNAL_SERVER_ERROR : String := "HTTP/1.1 500 INTERNAL SERVER ERROR\r\n\r\n"

/-- Reading a row back into a `User`, as the handlers do with
`row.get(0) .. row.get(4)`. -/
def rowToUser (r : Row) : User :=
  ⟨some r.id, r.name, r.email, some r.role, r.banned⟩

/-! ## The five request handlers

Each takes the decoded request text, the outcome of
`tokio_postgres::connect` (`none` = connection failure) and the store state.
-/

/-- `handle_get_request` of main.rs. -/
def handle_get_request (req : String) (conn : Option PgClient) (s : Store) : HOut :=
  match parseUuid (get_user_id_from_request req) with
  | none => .resp BAD_REQUEST "User not found." s
  | some id =>
    match conn with
    | none => .resp INTERNAL_SERVER_ERROR "DB connection error." s
    | some client =>
      match client.query_opt id s with
      | (.ok (some row), s1) => .resp OK_RESPONSE (encodeUser (rowToUser row)) s1
      | (.ok none, s1) => .resp NOT_FOUND "User not found." s1
      | (.error _, s1) => .resp INTERNAL_SERVER_ERROR "DB error." s1

/-- `handle_get_all_request` of main.rs. -/
def handle_get_all_request (conn : Option PgClient) (s : Store) : HOut :=
  match conn with
  | none => .resp INTERNAL_SERVER_ERROR "DB connection error." s
  | some client =>
    match client.query_all s with
    | (.ok rows, s1) => .resp OK_RESPONSE (encodeUsers (rows.map rowToUser)) s1
    | (.error _, s1) => .resp INTERNAL_SERVER_ERROR "DB query error." s1

/-- `handle_post_request` of main.rs.  Note the `unwrap()` on the email
existence check: a statement error there panics the task. -/
def handle_post_request (req : String) (conn : Option PgClient) (s : Store) : HOut :=
  match decodeUser (extract_body req) with
  | none => .resp BAD_REQUEST "Invalid JSON." s
  | some user =>
    if !emailMatch user.email then .resp BAD_REQUEST "Invalid email format." s
    else
      match conn with
      | none => .resp INTERNAL_SERVER_ERROR "DB connection error." s
      | some client =>
        match client.email_exists user.email s with
        | (.error _, _) => .panicked
        | (.ok ex, s1) =>
          if ex then .resp BAD_REQUEST "Email already exists." s1
          else
            match client.execute_insert user.name user.email s1 with
            | (.error _, s2) => .resp INTERNAL_SERVER_ERROR "DB insert error." s2
            | (.ok _, s2) => .resp OK_RESPONSE "User created successfully." s2

/-- `handle_put_request` of main.rs. -/
def handle_put_request (req : String) (conn : Option PgClient) (s : Store) : HOut :=
  match parseUuid (get_user_id_from_request req) with
  | none => .resp BAD_REQUEST "Invalid UUID." s
  | some id =>
    match decodeUser (extract_body req) with
    | none => .resp BAD_REQUEST "Invalid JSON." s
    | some user =>
      match conn with
      | none => .resp INTERNAL_SERVER_ERROR "DB connection error." s
      | some client =>
        match client.execute_update user.name user.email user.role user.banned id s with
        | (.error _, s1) => .resp INTERNAL_SERVER_ERROR "DB update error." s1
        | (.ok _, s1) => .resp OK_RESPONSE "User updated successfully" s1

/-- `handle_delete_request` of main.rs. -/
def handle_delete_request (req : String) (conn : Option PgClient) (s : Store) : HOut :=
  match parseUuid (get_user_id_from_request req) with
  | none => .resp BAD_REQUEST "Invalid UUID." s
  | some id =>
    match conn with
    | none => .resp INTERNAL_SERVER_ERROR "DB connection error." s
    | some client =>
      match client.execute_delete id s with
      | (.ok 0, s1) => .resp NOT_FOUND "User not found." s1
      | (.ok _, s1) => .resp OK_RESPONSE "User deleted successfully." s1
      | (.error _, s1) => .resp INTERNAL_SERVER_ERROR "DB delete error." s1

/-! ## Routing (`handle_client`) -/

/-- The five operations plus the unmatched case. -/
inductive Route where
  | getOne | getAll | post | put | delete | notFound
deriving DecidableEq

/-- Rust's `str::starts_with`, over the underlying characters. -/
def startsWithStr (req pre : String) : Bool := pre.data.isPrefixOf req.data

/-- The routing of `handle_client`: the guarded `match` testing, in source
order, which prefix the decoded request text starts with. -/
def route (req : String) : Route :=
  if startsWithStr req "GET /users/" then .getOne
  else if startsWithStr req "GET /users" then .getAll
  else if startsWithStr req "POST /users" then .post
  else if startsWithStr req "PUT /users/" then .put
  else if startsWithStr req "DELETE /users/" then .delete
  else .notFound

/-- The route table as the spec states it: prefixes in this fixed priority
order. -/
def routeTable : List (String × Route) :=
  [("GET /users/", .getOne), ("GET /users", .getAll), ("POST /users", .post),
   ("PUT /users/", .put), ("DELETE /users/", .delete)]

/-- Spec-side router: the first entry of the ordered table whose prefix
matches, `notFound` otherwise. -/
def routeSpec (req : String) : Route :=
  ((routeTable.find? (fun p => startsWithStr req p.1)).map Prod.snd).getD .notFound

/-- The dispatch of `handle_client`: run the routed handler, or produce the
fixed not-found response with no further processing. -/
def handle_client_resp (req : String) (conn : Option PgClient) (s : Store) : HOut :=
  match route req with
  | .getOne => handle_get_request req conn s
  | .getAll => handle_get_all_request conn s
  | .post => handle_post_request req conn s
  | .put => handle_put_request req conn s
  | .delete => handle_delete_request req conn s
  | .notFound => .resp NOT_FOUND "404 Not Found" s

/-! ## Clients -/

/-- The honest session: each statement of main.rs interpreted over the
`Store` with its SQL meaning, never failing except where SQL itself would
(binding a NULL `role` into the `NOT NULL` role column of a matched row). -/
def honestClient : PgClient where
  query_opt := fun id s => (.ok (s.rows.find? (fun r => r.id == id)), s)
  query_all := fun s => (.ok s.rows, s)
  email_exists := fun e s => (.ok (s.rows.any (fun r => r.email == e)), s)
  execute_insert := fun n e s =>
    (.ok (), ⟨s.rows ++ [⟨s.nextId, n, e, "user", some false⟩], s.nextId + 1⟩)
  execute_update := fun n e ro b id s =>
    let matched := s.rows.filter (fun r => r.id == id)
    match ro with
    | none => if matched.isEmpty then (.ok 0, s) else (.error (), s)
    | some role =>
      (.ok matched.length,
       ⟨s.rows.map (fun r => if r.id == id then
          { r with name := n, email := e, role := role, banned := b } else r),
        s.nextId⟩)
  execute_delete := fun id s =>
    ((.ok (s.rows.filter (fun r => r.id == id)).length),
     ⟨s.rows.filter (fun r => !(r.id == id)), s.nextId⟩)

/-- A session whose email existence check fails as a statement error
(everything else honest). -/
def existsFailClient : PgClient :=
  { honestClient with email_exists := fun _ s => (.error (), s) }

/-! ## Response headers -/

/-- Split on CRLF line breaks (accumulator holds the current line
reversed). -/
def splitCRLFAux : List Char → List Char → List (List Char)
  | '\r' :: '\n' :: rest, acc => acc.reverse :: splitCRLFAux rest []
  | c :: rest, acc => splitCRLFAux rest (c :: acc)
  | [], acc => [acc.reverse]

/-- The header lines of a status-line constant: everything between the first
CRLF and the blank line. -/
def headerLines (status : String) : List String :=
  ((((splitCRLFAux status.data []).drop 1).takeWhile (fun h => !h.isEmpty)).map
    List.asString)

/-! ## Sample requests and stores used in concrete theorems -/

/-- The empty store. -/
def emptyStore : Store := ⟨[], 0⟩

/-- A well-formed create request. -/
def postSample : String :=
  "POST /users HTTP/1.1\r\n\r\n\x7b\"name\":\"Al\",\"email\":\"al@ex.com\"\x7d"

/-- A create request whose body contains a second boundary marker as JSON
inter-token whitespace: the whole text after the first marker is valid JSON,
but the code truncates the body at the second marker. -/
def postTwoMarkers : String :=
  "POST /users HTTP/1.1\r\n\r\n\x7b\"name\":\"A\",\r\n\r\n\"email\":\"a@b.c\"\x7d"

/-- A full-update request with a parsable identifier whose body decodes but
whose email (`"b a d@@"`) is far from the email-shape rule. -/
def putWildEmail : String :=
  "PUT /users/00000000-0000-0000-0000-000000000000 HTTP/1.1\r\n\r\n\x7b\"name\":\"B\",\"email\":\"b a d@@\",\"role\":\"admin\",\"banned\":true\x7d"

/-- A store holding exactly the row the create of `postSample` would insert
into the empty store. -/
def storeAl : Store := ⟨[⟨0, "Al", "al@ex.com", "user", some false⟩], 1⟩

/-! # Theorems for the claims -/

theorem breakSub_length (pat : List Char) (hpat : pat ≠ []) :
    ∀ l b a : List Char, breakSub pat l = some (b, a) → a.length < l.length := by
  intro l
  induction l with
  | nil => intro b a h; simp [breakSub] at h
  | cons c rest ih =>
    intro b a h
    simp only [breakSub] at h
    split at h
    · cases h
      have hlen : 1 ≤ pat.length := by
        cases pat with
        | nil => exact absurd rfl hpat
        | cons _ _ => simp
      simp only [List.length_drop, List.length_cons]
      omega
    · cases hb : breakSub pat rest with
      | none => simp [hb] at h
      | some p =>
        simp only [hb, Option.map_some'] at h
        cases h
        have := ih p.1 p.2 (by simpa using hb)
        simp only [List.length_cons]
        omega

theorem splitMarkerF_adequate {f1 f2 : Nat} {l : List Char}
    (h1 : l.length < f1) (h2 : l.length < f2) :
    splitMarkerF f1 l = splitMarkerF f2 l := by
  induction f1 generalizing f2 l with
  | zero => omega
  | succ g ih =>
    cases f2 with
    | zero => omega
    | succ h =>
      simp only [splitMarkerF]
      cases hb : breakSub marker l with
      | none => rfl
      | some p =>
        have hlen : p.2.length < l.length :=
          breakSub_length marker (by simp [marker]) l p.1 p.2 hb
        exact congrArg (p.1 :: ·) (ih (by omega) (by omega))

/-- The defining equation of `splitMarker` free of fuel. -/
theorem splitMarker_eq (l : List Char) :
    splitMarker l = match breakSub marker l with
      | none => [l]
      | some p => p.1 :: splitMarker p.2 := by
  cases hb : breakSub marker l with
  | none =>
    show splitMarkerF (l.length + 1) l = [l]
    simp [splitMarkerF, hb]
  | some p =>
    have hlen : p.2.length < l.length :=
      breakSub_length marker (by simp [marker]) l p.1 p.2 hb
    show splitMarkerF (l.length + 1) l = p.1 :: splitMarker p.2
    simp only [splitMarkerF, hb]
    unfold splitMarker
    exact congrArg (p.1 :: ·) (splitMarkerF_adequate (by omega) (by omega))


/-- C1 (code evaluated at the failing input): on a well-formed create request
whose email existence-check statement fails, `handle_post_request` panics the
request's task through the `unwrap()` on line 213 of main.rs instead of
producing the 500 server-error outcome the specification requires. -/
theorem C1_exists_check_error_panics :
    handle_post_request postSample (some existsFailClient) emptyStore = .panicked := by
  rfl

/-- C6: on every id-bearing operation (get-by-id, update, delete), an
identifier extracted from the path (third slash-separated segment, truncated
at the first whitespace) that fails to parse as a UUID yields a 400
client-error response — never a 500 — and the result is a constant in the
session argument and leaves the store untouched: no session is consulted and
no statement is issued. -/
theorem C6_malformed_id_client_error (req : String) (conn : Option PgClient) (s : Store)
    (h : parseUuid (get_user_id_from_request req) = none) :
    handle_get_request req conn s = .resp BAD_REQUEST "User not found." s ∧
    handle_put_request req conn s = .resp BAD_REQUEST "Invalid UUID." s ∧
    handle_delete_request req conn s = .resp BAD_REQUEST "Invalid UUID." s := by
  refine ⟨?_, ?_, ?_⟩ <;>
    simp [handle_get_request, handle_put_request, handle_delete_request, h]

/-- C6 witness: the malformed identifier `not-a-valid-id` on a get-by-id
request, with a live honest session available. -/
theorem C6_witness :
    parseUuid (get_user_id_from_request "GET /users/not-a-valid-id HTTP/1.1\r\n\r\n") = none ∧
    handle_get_request "GET /users/not-a-valid-id HTTP/1.1\r\n\r\n" (some honestClient)
      emptyStore = .resp BAD_REQUEST "User not found." emptyStore ∧
    handle_delete_request "DELETE /users/not-a-valid-id HTTP/1.1\r\n\r\n" (some honestClient)
      emptyStore = .resp BAD_REQUEST "Invalid UUID." emptyStore :=
  ⟨by rfl,
   (C6_malformed_id_client_error _ (some honestClient) emptyStore (by rfl)).1,
   (C6_malformed_id_client_error _ (some honestClient) emptyStore (by rfl)).2.2⟩

/-- C3: with a well-formed identifier and a decodable body, the update
operation answers 200 "User updated successfully" whenever its UPDATE
statement executes without error, for every affected-row count including
zero; the delete operation answers 404 "User not found." exactly on zero
affected rows and 200 "User deleted successfully." on one or more. -/
theorem C3_update_delete_asymmetry :
    (∀ (req : String) (c : PgClient) (s : Store) (id : Nat) (u : User) (n : Nat) (s1 : Store),
      parseUuid (get_user_id_from_request req) = some id →
      decodeUser (extract_body req) = some u →
      c.execute_update u.name u.email u.role u.banned id s = (.ok n, s1) →
      handle_put_request req (some c) s = .resp OK_RESPONSE "User updated successfully" s1) ∧
    (∀ (req : String) (c : PgClient) (s : Store) (id : Nat) (s1 : Store),
      parseUuid (get_user_id_from_request req) = some id →
      c.execute_delete id s = (.ok 0, s1) →
      handle_delete_request req (some c) s = .resp NOT_FOUND "User not found." s1) ∧
    (∀ (req : String) (c : PgClient) (s : Store) (id : Nat) (n : Nat) (s1 : Store),
      parseUuid (get_user_id_from_request req) = some id →
      c.execute_delete id s = (.ok (n + 1), s1) →
      handle_delete_request req (some c) s = .resp OK_RESPONSE "User deleted successfully." s1) := by
  refine ⟨?_, ?_, ?_⟩
  · intro req c s id u n s1 hid hu hupd
    simp [handle_put_request, hid, hu, hupd]
  · intro req c s id s1 hid hdel
    simp [handle_delete_request, hid, hdel]
  · intro req c s id n s1 hid hdel
    simp [handle_delete_request, hid, hdel]

/-- C3 witness: an update of an existing row succeeds with the fixed message;
deleting on the empty store affects zero rows and answers not-found; deleting
the existing row affects one row and answers success. -/
theorem C3_witness :
    parseUuid (get_user_id_from_request putWildEmail) = some 0 ∧
    decodeUser (extract_body putWildEmail) = some ⟨none, "B", "b a d@@", some "admin", some true⟩ ∧
    handle_put_request putWildEmail (some honestClient) storeAl =
      .resp OK_RESPONSE "User updated successfully" ⟨[⟨0, "B", "b a d@@", "admin", some true⟩], 1⟩ ∧
    handle_delete_request "DELETE /users/00000000-0000-0000-0000-000000000000 HTTP/1.1"
      (some honestClient) emptyStore = .resp NOT_FOUND "User not found." emptyStore ∧
    handle_delete_request "DELETE /users/00000000-0000-0000-0000-000000000000 HTTP/1.1"
      (some honestClient) storeAl = .resp OK_RESPONSE "User deleted successfully." ⟨[], 1⟩ :=
  ⟨by rfl, by rfl,
   C3_update_delete_asymmetry.1 putWildEmail honestClient storeAl 0
     ⟨none, "B", "b a d@@", some "admin", some true⟩ 1 _ (by rfl) (by rfl) (by rfl),
   C3_update_delete_asymmetry.2.1 _ honestClient emptyStore 0 _ (by rfl) (by rfl),
   C3_update_delete_asymmetry.2.2 _ honestClient storeAl 0 0 _ (by rfl) (by rfl)⟩

/-- C9: the full-update operation never applies the email-shape rule — for
every update request with a parsable identifier and a decodable body, the
handler goes straight to the UPDATE statement with the decoded email (and
name, role, banned) bound into it, whatever the email string is, and its
outcome is decided by the statement alone; in particular the
"Invalid email format." client-error outcome is impossible. -/
theorem C9_put_never_validates_email (req : String) (c : PgClient) (s : Store)
    (id : Nat) (u : User)
    (hid : parseUuid (get_user_id_from_request req) = some id)
    (hu : decodeUser (extract_body req) = some u) :
    handle_put_request req (some c) s =
      (match c.execute_update u.name u.email u.role u.banned id s with
       | (.ok _, s1) => .resp OK_RESPONSE "User updated successfully" s1
       | (.error _, s1) => .resp INTERNAL_SERVER_ERROR "DB update error." s1) ∧
    handle_put_request req (some c) s ≠ .resp BAD_REQUEST "Invalid email format." s := by
  rcases hr : c.execute_update u.name u.email u.role u.banned id s with ⟨e, s1⟩
  cases e <;> constructor <;>
    simp [handle_put_request, hid, hu, hr, OK_RESPONSE, BAD_REQUEST, INTERNAL_SERVER_ERROR]

/-- C9 witness: the email `"b a d@@"` (whitespace, two `@`, no domain dot)
fails the create-side rule yet is bound into the UPDATE statement and the
update succeeds. -/
theorem C9_witness :
    emailMatch "b a d@@" = false ∧
    parseUuid (get_user_id_from_request putWildEmail) = some 0 ∧
    decodeUser (extract_body putWildEmail) = some ⟨none, "B", "b a d@@", some "admin", some true⟩ ∧
    handle_put_request putWildEmail (some honestClient) storeAl =
      (match honestClient.execute_update "B" "b a d@@" (some "admin") (some true) 0 storeAl with
       | (.ok _, s1) => .resp OK_RESPONSE "User updated successfully" s1
       | (.error _, s1) => .resp INTERNAL_SERVER_ERROR "DB update error." s1) ∧
    handle_put_request putWildEmail (some honestClient) storeAl ≠
      .resp BAD_REQUEST "Invalid email format." storeAl :=
  ⟨by rfl, by rfl, by rfl,
   (C9_put_never_validates_email putWildEmail honestClient storeAl 0
     ⟨none, "B", "b a d@@", some "admin", some true⟩ (by rfl) (by rfl)).1,
   (C9_put_never_validates_email putWildEmail honestClient storeAl 0
     ⟨none, "B", "b a d@@", some "admin", some true⟩ (by rfl) (by rfl)).2⟩

/-- C4: the router tests the five prefixes in exactly the source order (it
equals the first-match lookup over the ordered route table), an
identifier-bearing GET path is never classified as get-all, and a text
matching no prefix gets the fixed 404 response with no further processing
(the result is the same constant for every session and store). -/
theorem C4_router_priority :
    (∀ req : String, route req = routeSpec req) ∧
    (∀ req : String, startsWithStr req "GET /users/" = true → route req = .getOne) ∧
    (∀ (req : String) (conn : Option PgClient) (s : Store), route req = .notFound →
      handle_client_resp req conn s = .resp NOT_FOUND "404 Not Found" s) := by
  refine ⟨?_, ?_, ?_⟩
  · intro req
    simp only [route, routeSpec, routeTable, List.find?]
    by_cases h1 : startsWithStr req "GET /users/" <;>
      by_cases h2 : startsWithStr req "GET /users" <;>
        by_cases h3 : startsWithStr req "POST /users" <;>
          by_cases h4 : startsWithStr req "PUT /users/" <;>
            by_cases h5 : startsWithStr req "DELETE /users/" <;>
              simp [h1, h2, h3, h4, h5]
  · intro req h
    simp [route, h]
  · intro req conn s h
    simp only [handle_client_resp, h]

/-- C4 witness: an identifier-bearing GET routes to get-one (not get-all),
and an unmatched request line answers the fixed 404 with any session state. -/
theorem C4_witness :
    route "GET /users/5" = routeSpec "GET /users/5" ∧
    route "GET /users/5" = Route.getOne ∧
    handle_client_resp "BREW /coffee HTTP/1.1\r\n\r\n" none emptyStore =
      .resp NOT_FOUND "404 Not Found" emptyStore :=
  ⟨C4_router_priority.1 "GET /users/5",
   C4_router_priority.2.1 "GET /users/5" (by rfl),
   C4_router_priority.2.2 "BREW /coffee HTTP/1.1\r\n\r\n" none emptyStore (by rfl)⟩

/-- C5: on create, when a row with the requested email exists at the
existence check, the outcome is 400 "Email already exists." and the store is
left unchanged (no insert); when none exists, the create succeeds, appends
exactly one row with store-side defaults, and an immediate second create
with the same email yields the conflict outcome on the unchanged store. -/
theorem C5_email_uniqueness (req : String) (u : User) (s : Store)
    (hu : decodeUser (extract_body req) = some u)
    (hem : emailMatch u.email = true) :
    (s.rows.any (fun r => r.email == u.email) = true →
      handle_post_request req (some honestClient) s =
        .resp BAD_REQUEST "Email already exists." s) ∧
    (s.rows.any (fun r => r.email == u.email) = false →
      handle_post_request req (some honestClient) s =
        .resp OK_RESPONSE "User created successfully."
          ⟨s.rows ++ [⟨s.nextId, u.name, u.email, "user", some false⟩], s.nextId + 1⟩ ∧
      handle_post_request req (some honestClient)
          ⟨s.rows ++ [⟨s.nextId, u.name, u.email, "user", some false⟩], s.nextId + 1⟩ =
        .resp BAD_REQUEST "Email already exists."
          ⟨s.rows ++ [⟨s.nextId, u.name, u.email, "user", some false⟩], s.nextId + 1⟩) := by
  constructor
  · intro hex
    simp [handle_post_request, hu, hem, honestClient, hex]
  · intro hex
    constructor
    · simp [handle_post_request, hu, hem, honestClient, hex]
    · simp [handle_post_request, hu, hem, honestClient, hex]

/-- C5 witness: creating `al@ex.com` on the empty store succeeds and a second
identical create conflicts, leaving the single row in place. -/
theorem C5_witness :
    decodeUser (extract_body postSample) = some ⟨none, "Al", "al@ex.com", none, none⟩ ∧
    emailMatch "al@ex.com" = true ∧
    handle_post_request postSample (some honestClient) emptyStore =
      .resp OK_RESPONSE "User created successfully." storeAl ∧
    handle_post_request postSample (some honestClient) storeAl =
      .resp BAD_REQUEST "Email already exists." storeAl :=
  ⟨by rfl, by rfl,
   ((C5_email_uniqueness postSample ⟨none, "Al", "al@ex.com", none, none⟩ emptyStore
      (by rfl) (by rfl)).2 (by rfl)).1,
   ((C5_email_uniqueness postSample ⟨none, "Al", "al@ex.com", none, none⟩ emptyStore
      (by rfl) (by rfl)).2 (by rfl)).2⟩

/-- C2 counterexample: a create request whose body contains a second
boundary marker (as JSON inter-token whitespace).  Everything after the
first marker is a decodable JSON User with a rule-conforming email, yet the
code passes only the text between the first and second markers to the
decoder and answers 400 "Invalid JSON." — so the body handed to the decoder
is not "everything after the first occurrence of the marker". -/
theorem C2_counterexample :
    decodeUser (afterFirstMarker postTwoMarkers) =
      some ⟨none, "A", "a@b.c", none, none⟩ ∧
    emailMatch "a@b.c" = true ∧
    extract_body postTwoMarkers = "\x7b\"name\":\"A\"," ∧
    decodeUser (extract_body postTwoMarkers) = none ∧
    handle_post_request postTwoMarkers (some honestClient) emptyStore =
      .resp BAD_REQUEST "Invalid JSON." emptyStore :=
  ⟨rfl, rfl, rfl, rfl, rfl⟩

/-- C2 as amended: the body passed to the JSON decoder is the piece of the
request text strictly between the first occurrence of the boundary marker
and the next non-overlapping occurrence after it (the whole remainder when
the marker does not occur again), and a JSON decode failure of that body
yields a 400 "Invalid JSON." outcome with no store access for both create
and full update. -/
theorem C2_amended :
    (∀ (req : String) (p : List Char × List Char),
      breakSub marker req.data = some p →
      extract_body req =
        (match breakSub marker p.2 with
         | none => p.2
         | some q => q.1).asString) ∧
    (∀ (req : String) (conn : Option PgClient) (s : Store),
      decodeUser (extract_body req) = none →
      handle_post_request req conn s = .resp BAD_REQUEST "Invalid JSON." s) ∧
    (∀ (req : String) (conn : Option PgClient) (s : Store) (id : Nat),
      parseUuid (get_user_id_from_request req) = some id →
      decodeUser (extract_body req) = none →
      handle_put_request req conn s = .resp BAD_REQUEST "Invalid JSON." s) := by
  refine ⟨?_, ?_, ?_⟩
  · intro req p hp
    show (((splitMarker req.data).drop 1).headD []).asString = _
    rw [splitMarker_eq req.data, hp]
    show ((splitMarker p.2).headD []).asString = _
    rw [splitMarker_eq p.2]
    cases hq : breakSub marker p.2 <;> simp [hq]
  · intro req conn s h
    simp [handle_post_request, h]
  · intro req conn s id hid h
    simp [handle_put_request, hid, h]

/-- C2 witness: the amended extraction equation at the two-marker request,
and the 400 outcome at a request with an undecodable body. -/
theorem C2_witness :
    breakSub marker postTwoMarkers.data =
      some ("POST /users HTTP/1.1".data,
            "\x7b\"name\":\"A\",\r\n\r\n\"email\":\"a@b.c\"\x7d".data) ∧
    extract_body postTwoMarkers =
      (match breakSub marker "\x7b\"name\":\"A\",\r\n\r\n\"email\":\"a@b.c\"\x7d".data with
       | none => "\x7b\"name\":\"A\",\r\n\r\n\"email\":\"a@b.c\"\x7d".data
       | some q => q.1).asString ∧
    decodeUser (extract_body "POST /users HTTP/1.1\r\n\r\nnot json") = none ∧
    handle_post_request "POST /users HTTP/1.1\r\n\r\nnot json" (some honestClient)
      emptyStore = .resp BAD_REQUEST "Invalid JSON." emptyStore :=
  ⟨by rfl,
   C2_amended.1 postTwoMarkers
     ("POST /users HTTP/1.1".data,
      "\x7b\"name\":\"A\",\r\n\r\n\"email\":\"a@b.c\"\x7d".data) (by rfl),
   by rfl,
   C2_amended.2.1 "POST /users HTTP/1.1\r\n\r\nnot json" (some honestClient)
     emptyStore (by rfl)⟩

/-- C10 counterexample: a PUT request text with no boundary marker and a
malformed identifier resolves to 400 with body "Invalid UUID.", not
"Invalid JSON." as the claim states for every marker-less PUT text. -/
theorem C10_counterexample :
    hasSub marker ("PUT /users/abc HTTP/1.1").data = false ∧
    startsWithStr "PUT /users/abc HTTP/1.1" "PUT /users/" = true ∧
    handle_put_request "PUT /users/abc HTTP/1.1" (some honestClient) emptyStore =
      .resp BAD_REQUEST "Invalid UUID." emptyStore :=
  ⟨rfl, rfl, rfl⟩

/-- C10 as amended: on any request text containing no boundary marker, body
extraction yields the empty string and JSON decoding of it fails; a POST
resolves to 400 "Invalid JSON.", and a PUT resolves to 400 — with body
"Invalid JSON." when the path identifier parses as a UUID and
"Invalid UUID." when it does not; in all cases the task never panics and the
store is never consulted. -/
theorem C10_amended (req : String) (conn : Option PgClient) (s : Store)
    (h : hasSub marker req.data = false) :
    extract_body req = "" ∧
    decodeUser "" = none ∧
    handle_post_request req conn s = .resp BAD_REQUEST "Invalid JSON." s ∧
    (parseUuid (get_user_id_from_request req) = none →
      handle_put_request req conn s = .resp BAD_REQUEST "Invalid UUID." s) ∧
    (∀ id : Nat, parseUuid (get_user_id_from_request req) = some id →
      handle_put_request req conn s = .resp BAD_REQUEST "Invalid JSON." s) := by
  have hb : breakSub marker req.data = none := by
    cases hb : breakSub marker req.data with
    | none => rfl
    | some p => rw [hasSub, hb] at h; simp at h
  have hbody : extract_body req = "" := by
    show (((splitMarker req.data).drop 1).headD []).asString = ""
    rw [splitMarker_eq req.data, hb]
    rfl
  have hdec : decodeUser (extract_body req) = none := by rw [hbody]; rfl
  refine ⟨hbody, by rfl, ?_, ?_, ?_⟩
  · simp [handle_post_request, hdec]
  · intro hid
    simp [handle_put_request, hid]
  · intro id hid
    simp [handle_put_request, hid, hdec]

/-- C10 witness: a marker-less POST text, and a marker-less PUT text whose
identifier does parse. -/
theorem C10_witness :
    hasSub marker ("POST /users HTTP/1.1").data = false ∧
    handle_post_request "POST /users HTTP/1.1" (some honestClient) emptyStore =
      .resp BAD_REQUEST "Invalid JSON." emptyStore ∧
    hasSub marker ("PUT /users/00000000000000000000000000000000 HTTP/1.1").data = false ∧
    handle_put_request "PUT /users/00000000000000000000000000000000 HTTP/1.1"
      (some honestClient) emptyStore = .resp BAD_REQUEST "Invalid JSON." emptyStore :=
  ⟨rfl,
   (C10_amended "POST /users HTTP/1.1" (some honestClient) emptyStore (by rfl)).2.2.1,
   rfl,
   (C10_amended "PUT /users/00000000000000000000000000000000 HTTP/1.1"
     (some honestClient) emptyStore (by rfl)).2.2.2.2 0 (by rfl)⟩

/-- C8 counterexample: a create success is a 200 response whose body is the
fixed text "User created successfully." (not JSON — it does not even parse
as JSON), yet its status line is `OK_RESPONSE`, which carries the
`Content-Type: application/json` header; so it is not only the JSON-bodied
200 responses that carry the header. -/
theorem C8_counterexample :
    handle_post_request postSample (some honestClient) emptyStore =
      .resp OK_RESPONSE "User created successfully." storeAl ∧
    headerLines OK_RESPONSE = ["Content-Type: application/json"] ∧
    decodeJson "User created successfully." = none :=
  ⟨rfl, rfl, rfl⟩

/-- C8 as amended: every 200 response — including the fixed-text successes
of create, update and delete — carries the `Content-Type: application/json`
header, because the single 200 status-line constant includes it; the 400,
404 and 500 status lines carry no header lines at all; and the 200 bodies of
create, update and delete are exactly the short fixed human-readable
texts. -/
theorem C8_amended :
    headerLines OK_RESPONSE = ["Content-Type: application/json"] ∧
    headerLines BAD_REQUEST = [] ∧
    headerLines NOT_FOUND = [] ∧
    headerLines INTERNAL_SERVER_ERROR = [] ∧
    (∀ (req : String) (conn : Option PgClient) (s : Store) (b : String) (s1 : Store),
      handle_post_request req conn s = .resp OK_RESPONSE b s1 →
      b = "User created successfully.") ∧
    (∀ (req : String) (conn : Option PgClient) (s : Store) (b : String) (s1 : Store),
      handle_put_request req conn s = .resp OK_RESPONSE b s1 →
      b = "User updated successfully") ∧
    (∀ (req : String) (conn : Option PgClient) (s : Store) (b : String) (s1 : Store),
      handle_delete_request req conn s = .resp OK_RESPONSE b s1 →
      b = "User deleted successfully.") := by
  refine ⟨by rfl, by rfl, by rfl, by rfl, ?_, ?_, ?_⟩
  · intro req conn s b s1 h
    unfold handle_post_request at h
    repeat' split at h
    all_goals simp_all [OK_RESPONSE, BAD_REQUEST, NOT_FOUND, INTERNAL_SERVER_ERROR]
  · intro req conn s b s1 h
    unfold handle_put_request at h
    repeat' split at h
    all_goals simp_all [OK_RESPONSE, BAD_REQUEST, NOT_FOUND, INTERNAL_SERVER_ERROR]
  · intro req conn s b s1 h
    unfold handle_delete_request at h
    repeat' split at h
    all_goals simp_all [OK_RESPONSE, BAD_REQUEST, NOT_FOUND, INTERNAL_SERVER_ERROR]

/-- C8 witness: the post-inversion conjunct applied at a concrete successful
create. -/
theorem C8_witness :
    handle_post_request postSample (some honestClient) emptyStore =
      .resp OK_RESPONSE "User created successfully." storeAl ∧
    "User created successfully." = "User created successfully." :=
  ⟨by rfl,
   C8_amended.2.2.2.2.1 postSample (some honestClient) emptyStore
     "User created successfully." storeAl (by rfl)⟩

/-! ## The email characterization: `emailMatch` against `emailShapeSpec` -/

theorem okOrDot_iff (c : Char) : okOrDot c = (!isWsChar c && c != '@') := by
  by_cases h3 : c = '.'
  · subst h3; rfl
  · have h4 : (c == '.') = false := by simpa using h3
    have h5 : (c != '.') = true := by simp [bne, h4]
    simp [okOrDot, okChar, h4, h5, Bool.and_assoc]

theorem seqLoop_true_cons (c : Char) (r : List Char) :
    seqLoop true (c :: r) =
      if okChar c then seqLoop true r
      else if c = '.' then seqLoop false r
      else some (c :: r) := rfl

theorem seqLoop_false_cons (c : Char) (r : List Char) :
    seqLoop false (c :: r) =
      if okChar c then seqLoop true r
      else if c = '.' then none
      else none := rfl

theorem endsDot_cons_cons (c d : Char) (r : List Char) :
    endsDot (c :: d :: r) = endsDot (d :: r) := rfl

theorem endsDot_cons_of_ne (c : Char) (r : List Char) (hc : (c == '.') = false) :
    endsDot (c :: r) = endsDot r := by
  cases r with
  | nil => simp [endsDot, hc]
  | cons d r' => rfl

theorem noDD_cons_of_ne (c : Char) (r : List Char) (hc : (c == '.') = false) :
    noDD (c :: r) = noDD r := by
  cases r with
  | nil => rfl
  | cons d r' => simp [noDD, hc]

theorem noDD_dot_cons (r : List Char) :
    noDD ('.' :: r) = (!startsDot r && noDD r) := by
  cases r with
  | nil => rfl
  | cons d r' => simp [noDD, startsDot]

/-- Joint characterization of `seqLoop _ l = some []` (the dotted label
sequence consumes the whole input): in label mode this happens exactly when
every character is a label character or a dot, with no consecutive dots and
no trailing dot; in after-dot mode the input must additionally be non-empty
and not start with a dot. -/
theorem seqLoop_eats (l : List Char) :
    (seqLoop true l = some [] ↔
      (l.all okOrDot = true ∧ noDD l = true ∧ endsDot l = false)) ∧
    (seqLoop false l = some [] ↔
      (l ≠ [] ∧ startsDot l = false ∧ l.all okOrDot = true ∧
       noDD l = true ∧ endsDot l = false)) := by
  induction l with
  | nil => simp [seqLoop, noDD, endsDot]
  | cons c r ih =>
    by_cases hok : okChar c = true
    · have hdot : (c == '.') = false := by
        by_cases h : c = '.'
        · exfalso; rw [h] at hok; exact absurd hok (by decide)
        · simpa using h
      have hod : okOrDot c = true := by simp [okOrDot, hok]
      constructor
      · rw [seqLoop_true_cons, if_pos hok, ih.1]
        simp [hod, noDD_cons_of_ne c r hdot, endsDot_cons_of_ne c r hdot]
      · rw [seqLoop_false_cons, if_pos hok, ih.1]
        simp [hod, noDD_cons_of_ne c r hdot, endsDot_cons_of_ne c r hdot,
              startsDot, hdot]
    · by_cases hdot : c = '.'
      · subst hdot
        constructor
        · rw [seqLoop_true_cons, if_neg hok, if_pos rfl, ih.2]
          cases r with
          | nil => simp [endsDot]
          | cons d r' =>
            simp [noDD_dot_cons, endsDot_cons_cons, okOrDot]
            tauto
        · rw [seqLoop_false_cons, if_neg hok, if_pos rfl]
          simp [startsDot]
      · have hod : okOrDot c = false := by
          simp [okOrDot, hok, hdot]
        constructor
        · rw [seqLoop_true_cons, if_neg hok, if_neg hdot]
          simp [hod]
        · rw [seqLoop_false_cons, if_neg hok, if_neg hdot]
          simp [hod]

theorem cons_eq_append_at {c : Char} {m L r : List Char} :
    (c :: m = L ++ '@' :: r) ↔
      ((L = [] ∧ c = '@' ∧ m = r) ∨ (∃ T, L = c :: T ∧ m = T ++ '@' :: r)) := by
  cases L with
  | nil => simp [List.cons.injEq, eq_comm]
  | cons d T =>
    simp only [List.cons_append, List.cons.injEq]
    constructor
    · rintro ⟨h1, h2⟩
      exact Or.inr ⟨T, ⟨h1.symm, rfl⟩, h2⟩
    · rintro (⟨h, -⟩ | ⟨T2, ⟨hd, hT⟩, hm⟩)
      · exact absurd h (by simp)
      · exact ⟨hd.symm, hT ▸ hm⟩

/-- Joint characterization of the dotted-label consumption stopping exactly
at an `@`: the consumed prefix `L` is a (possibly empty in label mode,
necessarily non-empty and not dot-leading in after-dot mode) sequence of
label-or-dot characters without consecutive or trailing dots. -/
theorem seqLoop_stops (r : List Char) (l : List Char) :
    (seqLoop true l = some ('@' :: r) ↔
      ∃ L, l = L ++ '@' :: r ∧ L.all okOrDot = true ∧ noDD L = true ∧
        endsDot L = false) ∧
    (seqLoop false l = some ('@' :: r) ↔
      ∃ L, l = L ++ '@' :: r ∧ L ≠ [] ∧ startsDot L = false ∧
        L.all okOrDot = true ∧ noDD L = true ∧ endsDot L = false) := by
  induction l with
  | nil =>
    constructor
    · show some [] = some ('@' :: r) ↔ _
      simp
    · show none = some ('@' :: r) ↔ _
      simp
  | cons c m ih =>
    by_cases hok : okChar c = true
    · have hdot : (c == '.') = false := by
        by_cases h : c = '.'
        · exfalso; rw [h] at hok; exact absurd hok (by decide)
        · simpa using h
      have hat : c ≠ '@' := by
        intro h; rw [h] at hok; exact absurd hok (by decide)
      have hod : okOrDot c = true := by simp [okOrDot, hok]
      constructor
      · rw [seqLoop_true_cons, if_pos hok, ih.1]
        constructor
        · rintro ⟨T, hm, hall, hnd, hed⟩
          refine ⟨c :: T, by simp [hm], by simp [hod, hall], ?_, ?_⟩
          · rw [noDD_cons_of_ne c T hdot]; exact hnd
          · rw [endsDot_cons_of_ne c T hdot]; exact hed
        · rintro ⟨L, hl, hall, hnd, hed⟩
          rcases cons_eq_append_at.mp hl with ⟨-, hc, -⟩ | ⟨T, hL, hm⟩
          · exact absurd hc hat
          · subst hL
            refine ⟨T, hm, ?_, ?_, ?_⟩
            · simp only [List.all_cons, Bool.and_eq_true] at hall; exact hall.2
            · rw [noDD_cons_of_ne c T hdot] at hnd; exact hnd
            · rw [endsDot_cons_of_ne c T hdot] at hed; exact hed
      · rw [seqLoop_false_cons, if_pos hok, ih.1]
        constructor
        · rintro ⟨T, hm, hall, hnd, hed⟩
          refine ⟨c :: T, by simp [hm], by simp, by simp [startsDot, hdot],
            by simp [hod, hall], ?_, ?_⟩
          · rw [noDD_cons_of_ne c T hdot]; exact hnd
          · rw [endsDot_cons_of_ne c T hdot]; exact hed
        · rintro ⟨L, hl, -, -, hall, hnd, hed⟩
          rcases cons_eq_append_at.mp hl with ⟨-, hc, -⟩ | ⟨T, hL, hm⟩
          · exact absurd hc hat
          · subst hL
            refine ⟨T, hm, ?_, ?_, ?_⟩
            · simp only [List.all_cons, Bool.and_eq_true] at hall; exact hall.2
            · rw [noDD_cons_of_ne c T hdot] at hnd; exact hnd
            · rw [endsDot_cons_of_ne c T hdot] at hed; exact hed
    · by_cases hdot : c = '.'
      · subst hdot
        constructor
        · rw [seqLoop_true_cons, if_neg hok, if_pos rfl, ih.2]
          constructor
          · rintro ⟨T, hm, hne, hsd, hall, hnd, hed⟩
            refine ⟨'.' :: T, by simp [hm], by simp [okOrDot, hall], ?_, ?_⟩
            · rw [noDD_dot_cons]; simp [startsDot] at hsd ⊢; simp [hsd, hnd]
            · cases T with
              | nil => exact absurd rfl hne
              | cons d T' => rw [endsDot_cons_cons]; exact hed
          · rintro ⟨L, hl, hall, hnd, hed⟩
            rcases cons_eq_append_at.mp hl with ⟨-, hc, -⟩ | ⟨T, hL, hm⟩
            · exact absurd hc (by decide)
            · subst hL
              have hTne : T ≠ [] := by
                intro h; subst h; simp [endsDot] at hed
              simp only [List.all_cons, Bool.and_eq_true] at hall
              refine ⟨T, hm, hTne, ?_, hall.2, ?_, ?_⟩
              · rw [noDD_dot_cons] at hnd
                rcases Bool.and_eq_true .. |>.mp hnd with ⟨h1, -⟩
                simpa using h1
              · rw [noDD_dot_cons] at hnd
                rcases Bool.and_eq_true .. |>.mp hnd with ⟨-, h2⟩
                exact h2
              · cases T with
                | nil => exact absurd rfl hTne
                | cons d T' => rw [endsDot_cons_cons] at hed; exact hed
        · rw [seqLoop_false_cons, if_neg hok, if_pos rfl]
          constructor
          · intro h; exact absurd h (by simp)
          · rintro ⟨L, hl, -, hsd, -, -, -⟩
            rcases cons_eq_append_at.mp hl with ⟨-, hc, -⟩ | ⟨T, hL, -⟩
            · exact absurd hc (by decide)
            · subst hL; simp [startsDot] at hsd
      · have hod : okOrDot c = false := by simp [okOrDot, hok, hdot]
        constructor
        · rw [seqLoop_true_cons, if_neg hok, if_neg hdot]
          constructor
          · intro h
            rcases Option.some.injEq .. |>.mp h with h2
            rcases List.cons.injEq .. |>.mp h2 with ⟨hc, hm⟩
            exact ⟨[], by simp [hc, hm], by simp, by simp [noDD], by simp [endsDot]⟩
          · rintro ⟨L, hl, hall, -, -⟩
            rcases cons_eq_append_at.mp hl with ⟨hL, hc, hm⟩ | ⟨T, hL, -⟩
            · subst hc hm; rfl
            · subst hL; simp [hod] at hall
        · rw [seqLoop_false_cons, if_neg hok, if_neg hdot]
          constructor
          · intro h; exact absurd h (by simp)
          · rintro ⟨L, hl, hne, -, hall, -, -⟩
            rcases cons_eq_append_at.mp hl with ⟨hL, -, -⟩ | ⟨T, hL, -⟩
            · exact absurd hL hne
            · subst hL; simp [hod] at hall

theorem goodLabels_iff (L : List Char) :
    goodLabels L = true ↔
      (L ≠ [] ∧ startsDot L = false ∧ endsDot L = false ∧ noDD L = true ∧
       L.all okOrDot = true) := by
  simp only [goodLabels, Bool.and_eq_true, Bool.not_eq_true']
  have hni : (L.isEmpty = false) ↔ L ≠ [] := by cases L <;> simp
  rw [hni]
  tauto

theorem partOK_iff (L : List Char) :
    partOK L = true ↔
      (L ≠ [] ∧ startsDot L = false ∧ endsDot L = false ∧ noDD L = true ∧
       L.all (fun c => !isWsChar c) = true) := by
  simp only [partOK, Bool.and_eq_true, Bool.not_eq_true']
  have hni : (L.isEmpty = false) ↔ L ≠ [] := by cases L <;> simp
  rw [hni]
  tauto

theorem not_at_mem_of_all {L : List Char} (h : L.all okOrDot = true) : '@' ∉ L := by
  intro hm
  have := List.all_eq_true.mp h _ hm
  exact absurd this (by decide)

theorem goodLabels_iff_partOK (L : List Char) (h : '@' ∉ L) :
    (goodLabels L = true ↔ partOK L = true) := by
  have hall : (L.all okOrDot = true) ↔ (L.all (fun c => !isWsChar c) = true) := by
    simp only [List.all_eq_true]
    constructor
    · intro hf c hc
      have := hf c hc
      rw [okOrDot_iff] at this
      exact (Bool.and_eq_true .. |>.mp this).1
    · intro hf c hc
      have hne : c ≠ '@' := fun h2 => h (h2 ▸ hc)
      rw [okOrDot_iff]
      simp [hf c hc, bne, hne]
  rw [goodLabels_iff, partOK_iff]
  tauto

/-- `matchSeq` consumes the whole input exactly on a well-formed dotted label
sequence. -/
theorem matchSeq_all (l : List Char) :
    matchSeq l = some [] ↔ goodLabels l = true := by
  cases l with
  | nil =>
    show none = some [] ↔ _
    simp [goodLabels]
  | cons c m =>
    show (if okChar c then seqLoop true m else none) = some [] ↔ _
    by_cases hok : okChar c = true
    · have hdot : (c == '.') = false := by
        by_cases h : c = '.'
        · exfalso; rw [h] at hok; exact absurd hok (by decide)
        · simpa using h
      have hod : okOrDot c = true := by simp [okOrDot, hok]
      rw [if_pos hok, (seqLoop_eats m).1, goodLabels_iff]
      simp [startsDot, hdot, noDD_cons_of_ne c m hdot,
        endsDot_cons_of_ne c m hdot, hod, List.all_eq_true]
      tauto
    · rw [if_neg hok]
      constructor
      · intro h; exact absurd h (by simp)
      · intro h
        rcases (goodLabels_iff _).mp h with ⟨-, hsd, -, -, hall⟩
        by_cases hdot : c = '.'
        · subst hdot; simp [startsDot] at hsd
        · have hod : okOrDot c = false := by simp [okOrDot, hok, hdot]
          simp [hod] at hall

/-- `matchSeq` stops exactly at an `@` preceded by a well-formed dotted label
sequence. -/
theorem matchSeq_at (l r : List Char) :
    matchSeq l = some ('@' :: r) ↔
      ∃ L, l = L ++ '@' :: r ∧ goodLabels L = true := by
  cases l with
  | nil =>
    show none = some ('@' :: r) ↔ _
    simp
  | cons c m =>
    show (if okChar c then seqLoop true m else none) = some ('@' :: r) ↔ _
    by_cases hok : okChar c = true
    · have hdot : (c == '.') = false := by
        by_cases h : c = '.'
        · exfalso; rw [h] at hok; exact absurd hok (by decide)
        · simpa using h
      have hat : c ≠ '@' := by
        intro h; rw [h] at hok; exact absurd hok (by decide)
      have hod : okOrDot c = true := by simp [okOrDot, hok]
      rw [if_pos hok, (seqLoop_stops r m).1]
      constructor
      · rintro ⟨T, hm, hall, hnd, hed⟩
        refine ⟨c :: T, by simp [hm], (goodLabels_iff _).mpr
          ⟨by simp, by simp [startsDot, hdot], ?_, ?_, by simp [hod, hall]⟩⟩
        · rw [endsDot_cons_of_ne c T hdot]; exact hed
        · rw [noDD_cons_of_ne c T hdot]; exact hnd
      · rintro ⟨L, hl, hgl⟩
        rcases cons_eq_append_at.mp hl with ⟨-, hc, -⟩ | ⟨T, hL, hm⟩
        · exact absurd hc hat
        · subst hL
          rcases (goodLabels_iff _).mp hgl with ⟨-, -, hed, hnd, hall⟩
          refine ⟨T, hm, ?_, ?_, ?_⟩
          · simp only [List.all_cons, Bool.and_eq_true] at hall; exact hall.2
          · rw [noDD_cons_of_ne c T hdot] at hnd; exact hnd
          · rw [endsDot_cons_of_ne c T hdot] at hed; exact hed
    · rw [if_neg hok]
      constructor
      · intro h; exact absurd h (by simp)
      · rintro ⟨L, hl, hgl⟩
        rcases (goodLabels_iff _).mp hgl with ⟨hne, hsd, -, -, hall⟩
        rcases cons_eq_append_at.mp hl with ⟨hL, -, -⟩ | ⟨T, hL, -⟩
        · exact absurd hL hne
        · subst hL
          by_cases hdot : c = '.'
          · subst hdot; simp [startsDot] at hsd
          · have hod : okOrDot c = false := by simp [okOrDot, hok, hdot]
            simp [hod] at hall

theorem tw_append_at (L r : List Char) (h : '@' ∉ L) :
    (L ++ '@' :: r).takeWhile (fun c => c != '@') = L ∧
    (L ++ '@' :: r).dropWhile (fun c => c != '@') = '@' :: r := by
  induction L with
  | nil => constructor <;> simp [List.takeWhile_cons, List.dropWhile_cons]
  | cons d L' ih =>
    have hd : d ≠ '@' := fun h2 => h (by simp [h2])
    have hd2 : (d != '@') = true := by simp [bne, hd]
    have hd3 : (d == '@') = false := by simp [hd]
    have ihh := ih (fun hm => h (List.mem_cons_of_mem _ hm))
    constructor <;>
      simp [List.takeWhile_cons, List.dropWhile_cons, hd2, hd3, ihh.1, ihh.2]

theorem mem_at_split (l : List Char) (h : '@' ∈ l) :
    ∃ t, l.dropWhile (fun c => c != '@') = '@' :: t := by
  induction l with
  | nil => cases h
  | cons c m ih =>
    by_cases hc : c = '@'
    · subst hc
      exact ⟨m, by simp [List.dropWhile_cons]⟩
    · have hm : '@' ∈ m := by
        rcases List.mem_cons.mp h with h1 | h1
        · exact absurd h1.symm hc
        · exact h1
      rcases ih hm with ⟨t, ht⟩
      have hc3 : (c == '@') = false := by simp [hc]
      exact ⟨t, by simpa [List.dropWhile_cons, hc3, hc] using ht⟩

/-- The email matcher agrees with the claim-side shape predicate on every
string. -/
theorem emailMatch_eq_spec (e : String) : emailMatch e = emailShapeSpec e := by
  have main : emailMatch e = true ↔ emailShapeSpec e = true := by
    constructor
    · intro h
      unfold emailMatch at h
      split at h
      · rename_i r heq
        rw [Bool.and_eq_true, beq_iff_eq] at h
        obtain ⟨hseq, hcont⟩ := h
        rcases (matchSeq_at e.data r).mp heq with ⟨L, hl, hgL⟩
        have hgr : goodLabels r = true := (matchSeq_all r).mp hseq
        have hLall := ((goodLabels_iff L).mp hgL).2.2.2.2
        have hrall := ((goodLabels_iff r).mp hgr).2.2.2.2
        have hLat : '@' ∉ L := not_at_mem_of_all hLall
        have hrat : '@' ∉ r := not_at_mem_of_all hrall
        have htw := tw_append_at L r hLat
        have hcount : (L ++ '@' :: r).count '@' = 1 := by
          rw [List.count_append, List.count_cons]
          simp [List.count_eq_zero.mpr hLat, List.count_eq_zero.mpr hrat]
        unfold emailShapeSpec
        rw [hl, htw.1, htw.2, hcount]
        show (_ && partOK L && partOK r && r.contains '.') = true
        rw [(goodLabels_iff_partOK L hLat).mp hgL,
            (goodLabels_iff_partOK r hrat).mp hgr, hcont]
        rfl
      · simp at h
    · intro h
      unfold emailShapeSpec at h
      simp only [Bool.and_eq_true, beq_iff_eq] at h
      obtain ⟨⟨⟨hcount, hpl⟩, hpd⟩, hcont⟩ := h
      have hmem : '@' ∈ e.data := by
        by_contra hnm
        rw [List.count_eq_zero.mpr hnm] at hcount
        omega
      rcases mem_at_split e.data hmem with ⟨t, ht⟩
      have hsplit : e.data = e.data.takeWhile (fun c => c != '@') ++ '@' :: t := by
        conv_lhs =>
          rw [← List.takeWhile_append_dropWhile (fun c => c != '@') e.data]
        rw [ht]
      have hLat : '@' ∉ e.data.takeWhile (fun c => c != '@') := by
        intro hm
        have := List.mem_takeWhile_imp hm
        simp at this
      have htcount : t.count '@' = 0 := by
        have h2 := hcount
        rw [hsplit, List.count_append, List.count_cons] at h2
        rw [List.count_eq_zero.mpr hLat] at h2
        simp at h2
        omega
      have hrat : '@' ∉ t := List.count_eq_zero.mp htcount
      rw [ht] at hpd hcont
      simp only [List.tail_cons] at hpd hcont
      have hgL : goodLabels (e.data.takeWhile (fun c => c != '@')) = true :=
        (goodLabels_iff_partOK _ hLat).mpr hpl
      have hgt : goodLabels t = true := (goodLabels_iff_partOK t hrat).mpr hpd
      have hms : matchSeq e.data = some ('@' :: t) :=
        (matchSeq_at e.data t).mpr ⟨_, hsplit, hgL⟩
      unfold emailMatch
      rw [hms]
      show (matchSeq t == some [] && t.contains '.') = true
      rw [(matchSeq_all t).mpr hgt, hcont]
      rfl
  cases he : emailMatch e with
  | false =>
    cases hs : emailShapeSpec e with
    | false => rfl
    | true => exact absurd (main.mpr hs) (by simp [he])
  | true => exact (main.mp he).symm

/-- C7: on create, an email is accepted exactly when it has the claimed
shape — exactly one `@`, a non-empty local part with no leading, trailing or
consecutive dots and no whitespace, and a domain part of the same label
shape containing at least one dot between labels (`emailShapeSpec`); a
decodable body whose email violates the rule yields 400
"Invalid email format.", distinct from the 400 "Invalid JSON." outcome of a
decode failure. -/
theorem C7_email_shape_rule :
    (∀ e : String, emailMatch e = emailShapeSpec e) ∧
    (∀ (req : String) (conn : Option PgClient) (s : Store) (u : User),
      decodeUser (extract_body req) = some u → emailMatch u.email = false →
      handle_post_request req conn s = .resp BAD_REQUEST "Invalid email format." s) ∧
    (∀ (req : String) (conn : Option PgClient) (s : Store),
      decodeUser (extract_body req) = none →
      handle_post_request req conn s = .resp BAD_REQUEST "Invalid JSON." s) := by
  refine ⟨emailMatch_eq_spec, ?_, ?_⟩
  · intro req conn s u hu hem
    simp [handle_post_request, hu, hem]
  · intro req conn s h
    simp [handle_post_request, h]

/-- C7 witness: the characterization evaluated at accepted and rejected
emails, and the invalid-email outcome at a concrete create request. -/
theorem C7_witness :
    emailMatch "al@ex.com" = emailShapeSpec "al@ex.com" ∧
    emailMatch "al@ex.com" = true ∧
    emailMatch "bad..dots@x" = emailShapeSpec "bad..dots@x" ∧
    emailMatch "bad..dots@x" = false ∧
    decodeUser (extract_body "POST /users HTTP/1.1\r\n\r\n\x7b\"name\":\"X\",\"email\":\"bad..dots@x\"\x7d") =
      some ⟨none, "X", "bad..dots@x", none, none⟩ ∧
    handle_post_request "POST /users HTTP/1.1\r\n\r\n\x7b\"name\":\"X\",\"email\":\"bad..dots@x\"\x7d"
      (some honestClient) emptyStore =
      .resp BAD_REQUEST "Invalid email format." emptyStore :=
  ⟨C7_email_shape_rule.1 "al@ex.com", by rfl,
   C7_email_shape_rule.1 "bad..dots@x", by rfl, by rfl,
   C7_email_shape_rule.2.1 "POST /users HTTP/1.1\r\n\r\n\x7b\"name\":\"X\",\"email\":\"bad..dots@x\"\x7d"
     (some honestClient) emptyStore ⟨none, "X", "bad..dots@x", none, none⟩
     (by rfl) (by rfl)⟩
